import Mathlib

/-!
Verification of the dragonglass Vulkan frame-orchestration engine.

Shallow Lean embeddings of the renderer's pure bookkeeping logic:
dynamic uniform alignment, the frame counter and synchronization ring,
asset-cache metadata generation, joint-matrix table updates, mipmap
command emission, draw-command ordering, buffer uploads, and the
render-loop / swapchain-recreation control flow.
-/

set_option maxHeartbeats 1000000
set_option maxRecDepth 4000

namespace Dragonglass

/-! ## Constants from the source -/

/-- `SynchronizationSetConstants::MAX_FRAMES_IN_FLIGHT` (synchronization_set.rs:33). -/
def MAX_FRAMES_IN_FLIGHT : Nat := 2

/-- `UniformBufferObject::MAX_NUM_JOINTS` (scene.rs:57). -/
def MAX_NUM_JOINTS : Nat := 128

/-! ## Dynamic uniform alignment (scene.rs `PbrPipelineData::calculate_dynamic_alignment`)

The source computes, on `u64` arithmetic:
`if minimum_ubo_alignment > 0 { (size + align - 1) & !(align - 1) } else { size }`
where `size = mem::size_of::<DynamicUniformBufferObject>()`.  The struct size
is a parameter here (it is 80 bytes in the source: a mat4 and a vec4 of f32);
`u64` negation `!x` is modelled as xor with the all-ones word, and the
addition is reduced mod `2^64` where it could wrap. -/

def calculate_dynamic_alignment (struct_size min_align : Nat) : Nat :=
  if min_align > 0 then
    ((struct_size + min_align - 1) % 2 ^ 64) &&&
      ((2 ^ 64 - 1) ^^^ ((min_align - 1) % 2 ^ 64))
  else
    struct_size

/-! ## Frame counter (renderer.rs:334-335)

`self.current_frame += (1 + self.current_frame) % SynchronizationSet::MAX_FRAMES_IN_FLIGHT`. -/

def advance_current_frame (current_frame : Nat) : Nat :=
  current_frame + (1 + current_frame) % MAX_FRAMES_IN_FLIGHT

/-- `CurrentFrameSynchronization::new` (synchronization_set.rs:83-95) indexes the
semaphore and fence vectors directly at `current_frame`, so the active
synchronization slot is the counter itself. -/
def sync_slot_index (current_frame : Nat) : Nat :=
  current_frame

/-! ## Buffer uploads (buffer.rs `Buffer::upload_to_buffer`)

The source maps the allocation, evaluates `data_pointer.add(offset)` but
discards the resulting pointer, and then copies `data.len()` elements with
`(data_pointer as *mut T).copy_from_nonoverlapping(data.as_ptr(), data.len())`,
i.e. to the base of the mapped allocation.  The mapped memory is modelled as a
list of elements; the copy overwrites its first `data.length` elements. -/

def upload_to_buffer (data : List α) (offset : Nat) (mem : List α) : List α :=
  let _unused_shifted_pointer := offset
  data ++ mem.drop data.length

/-! ## Synchronization set (synchronization_set.rs `SynchronizationSet::new`) -/

/-- A Vulkan semaphore handle, opaque to this model. -/
structure Semaphore where
  mk ::

/-- A Vulkan fence, tracked by its signaled state. -/
structure Fence where
  signaled : Bool

/-- Modelled from the spec: the Vulkan fence-creation semantics behind
`Fence::new(context, flags)` (fence.rs:12-22) — the created fence starts
signaled iff `FenceCreateFlags::SIGNALED` is passed. -/
def Fence.new (signaled_flag : Bool) : Fence :=
  { signaled := signaled_flag }

/-- Modelled from the spec: `LogicalDevice::wait_for_fence`
(logical_device.rs:43-50) blocks until the fence is signaled, so the wait
returns immediately iff the fence is already in the signaled state. -/
def fence_wait_returns_immediately (f : Fence) : Bool :=
  f.signaled

structure SynchronizationSet where
  image_available_semaphores : List Semaphore
  render_finished_semaphores : List Semaphore
  in_flight_fences : List Fence

/-- Embeds `SynchronizationSet::new` (synchronization_set.rs:43-66): the loop
runs `MAX_FRAMES_IN_FLIGHT` times, pushing one image-available semaphore, one
render-finished semaphore, and one fence created with
`vk::FenceCreateFlags::SIGNALED` per iteration. -/
def SynchronizationSet.new : SynchronizationSet :=
  { image_available_semaphores := List.replicate MAX_FRAMES_IN_FLIGHT ⟨⟩
    render_finished_semaphores := List.replicate MAX_FRAMES_IN_FLIGHT ⟨⟩
    in_flight_fences := List.replicate MAX_FRAMES_IN_FLIGHT (Fence.new true) }

/-! ## Joint-matrix table update (scene.rs `PbrScene::update`, lines 977-994)

The per-skin loop
`for (index, joint) in skin.joints.iter().enumerate() { ... }`
prints a warning when `index > MAX_NUM_JOINTS` and then unconditionally
executes `ubo.joint_matrices[joint_offset + index] = joint_matrix`.
The joint matrices themselves (inverse global transform × joint global
transform × inverse bind matrix) are opaque values here, passed in as the
precomputed list `ms`; the fixed-size `[Mat4; MAX_NUM_JOINTS]` array is
modelled as a list, and a Rust out-of-bounds index panic as `Except.error`. -/

/-- A Rust array write `table[j] = v`: out of bounds is a panic. -/
def list_set_checked (table : List α) (j : Nat) (v : α) : Except String (List α) :=
  if j < table.length then Except.ok (table.set j v) else Except.error "index out of bounds"

/-- The joint loop body, indexed from `i`; returns the warned indices and the
updated joint-matrix table, or the out-of-bounds panic. -/
def write_joints_loop (joint_offset : Nat) :
    Nat → List α → List α → List Nat → Except String (List Nat × List α)
  | _, [], table, warns => Except.ok (warns, table)
  | i, m :: rest, table, warns =>
    let warns' := if i > MAX_NUM_JOINTS then warns ++ [i] else warns
    match list_set_checked table (joint_offset + i) m with
    | Except.ok table' => write_joints_loop joint_offset (i + 1) rest table' warns'
    | Except.error e => Except.error e

/-- Embeds the whole per-skin loop starting at `index = 0` with no warnings
emitted yet. -/
def write_joint_matrices (joint_offset : Nat) (ms : List α) (table : List α) :
    Except String (List Nat × List α) :=
  write_joints_loop joint_offset 0 ms table []

/-! ## Mipmap generation (texture.rs `Texture::generate_mipmaps`, lines 353-518)

The source first panics if the format does not support linear-filter blits,
then runs `for level in 1..mip_levels` with mutable `mip_width`/`mip_height`
(always positive for a real texture, so the `i32` arithmetic is modelled on
`Nat`), emitting a barrier, a blit and a barrier per level, and finally emits
one barrier for the last level. -/

inductive ImageLayout
  | transfer_dst
  | transfer_src
  | shader_read_only
deriving DecidableEq

inductive MipCommand
  | transition (base_mip_level : Nat) (old_layout new_layout : ImageLayout)
  | blit (src_level dst_level src_width src_height dst_width dst_height : Nat)
deriving DecidableEq

/-- The `for level in 1..mip_levels` loop, with `r` remaining iterations. -/
def generate_mipmaps_loop (level w h : Nat) : Nat → List MipCommand
  | 0 => []
  | r + 1 =>
    let next_w := if w > 1 then w / 2 else w
    let next_h := if h > 1 then h / 2 else h
    MipCommand.transition (level - 1) .transfer_dst .transfer_src
      :: MipCommand.blit (level - 1) level w h next_w next_h
      :: MipCommand.transition (level - 1) .transfer_src .shader_read_only
      :: generate_mipmaps_loop (level + 1) next_w next_h r

/-- Embeds `Texture::generate_mipmaps`: the format-support check, the
per-level loop, and the final transition of level `mip_levels - 1`. -/
def generate_mipmaps (linear_filtering_supported : Bool) (width height mip_levels : Nat) :
    Except String (List MipCommand) :=
  if linear_filtering_supported then
    Except.ok (generate_mipmaps_loop 1 width height (mip_levels - 1)
      ++ [MipCommand.transition (mip_levels - 1) .transfer_dst .shader_read_only])
  else
    Except.error "Linear blitting is not supported for format"

/-- Modelled from the spec (§4.3): for each mip level `N` from 1 upward,
transition level `N-1` from transfer-destination to transfer-source, blit
level `N-1` into level `N` at half resolution where each dimension is halved
by floor division and clamped to a minimum of 1, then transition level `N-1`
to shader-read. -/
def spec_mip_chain (level w h : Nat) : Nat → List MipCommand
  | 0 => []
  | r + 1 =>
    MipCommand.transition (level - 1) .transfer_dst .transfer_src
      :: MipCommand.blit (level - 1) level w h (max (w / 2) 1) (max (h / 2) 1)
      :: MipCommand.transition (level - 1) .transfer_src .shader_read_only
      :: spec_mip_chain (level + 1) (max (w / 2) 1) (max (h / 2) 1) r

/-- Modelled from the spec (§4.3): the per-level chain for levels
`1 .. mip_levels - 1`, then level `mip_levels - 1` transitioned directly from
transfer-destination to shader-read. -/
def spec_generate_mipmaps (width height mip_levels : Nat) : List MipCommand :=
  spec_mip_chain 1 width height (mip_levels - 1)
    ++ [MipCommand.transition (mip_levels - 1) .transfer_dst .shader_read_only]

/-! ## Render loop control flow (renderer.rs `VulkanRenderer::render`, lines 275-336,
and `VulkanRenderer::recreate_swapchain`, lines 110-135)

The GPU-side calls are modelled as an emitted action trace; the results of
swapchain acquisition and presentation are inputs.  A Rust `panic!`/`expect`
on an unexpected error is `Except.error`; the staleness paths return
`Except.ok` (not surfaced to the caller). -/

inductive RenderAction
  | wait_fence
  | acquire_next_image
  | reset_fence
  | submit_command_buffer (image_index : Nat)
  | present (image_index : Nat)
  | wait_idle
  | destroy_swapchain
  | create_swapchain (width height : Nat)
  | destroy_handles
  | create_handles
  | record_all_command_buffers
deriving DecidableEq

/-- Outcome of `Swapchain::acquire_next_image` as seen by `render` — the
source ignores the suboptimal flag at acquisition (`Ok((image_index, _))`). -/
inductive AcquireResult
  | success (image_index : Nat)
  | error_out_of_date
  | error_other

/-- Outcome of `Swapchain::present_rendered_image` as seen by `render`. -/
inductive PresentResult
  | success (is_suboptimal : Bool)
  | error_out_of_date
  | error_other

/-- Embeds `VulkanRenderer::recreate_swapchain`: device-idle wait, drop the
old swapchain, build a new one against the window dimensions, drop and
rebuild the render-pass-dependent handles (render pass, depth/color
textures, framebuffers), then re-record every command buffer. -/
def recreate_swapchain (width height : Nat) : List RenderAction :=
  [RenderAction.wait_idle, RenderAction.destroy_swapchain,
   RenderAction.create_swapchain width height, RenderAction.destroy_handles,
   RenderAction.create_handles, RenderAction.record_all_command_buffers]

/-- Embeds `VulkanRenderer::render`: returns the emitted action trace and the
new frame counter, or an error for the panicking paths. -/
def render (acquire_result : AcquireResult) (present_result : PresentResult)
    (width height current_frame : Nat) : Except String (List RenderAction × Nat) :=
  let trace := [RenderAction.wait_fence, RenderAction.acquire_next_image]
  match acquire_result with
  | .error_out_of_date =>
      Except.ok (trace ++ recreate_swapchain width height, current_frame)
  | .error_other => Except.error "Error while acquiring next image"
  | .success image_index =>
    let trace := trace ++ [RenderAction.reset_fence,
      RenderAction.submit_command_buffer image_index, RenderAction.present image_index]
    match present_result with
    | .success is_suboptimal =>
        if is_suboptimal then
          Except.ok (trace ++ recreate_swapchain width height,
            advance_current_frame current_frame)
        else
          Except.ok (trace, advance_current_frame current_frame)
    | .error_out_of_date =>
        Except.ok (trace ++ recreate_swapchain width height,
          advance_current_frame current_frame)
    | .error_other => Except.error "Failed to present queue"

/-! ## Asset data model

The glTF loading module (`vulkan::asset`) is consumed as an opaque
asset-description API; an asset is modelled by the attributes the cache and
draw code read from it: `number_of_meshes`, the node graph in traversal
order (`walk`/`walk_mut`), with optional per-node mesh and skin data, the
texture count, the vertex count (`vertices.len() / GltfAsset::vertex_stride()`)
and the index count.  Each primitive carries its resolved material alpha
mode (the material table itself is opaque glTF data). -/

inductive AlphaMode
  | Opaque
  | Mask
  | Blend
deriving DecidableEq

structure Primitive where
  alpha_mode : AlphaMode
  number_of_indices : Nat
  first_index : Nat
deriving DecidableEq

structure Mesh where
  mesh_id : Nat
  primitives : List Primitive
deriving DecidableEq

structure Joint where
  target_gltf_index : Nat
deriving DecidableEq

structure Skin where
  joints : List Joint
deriving DecidableEq

structure GltfNode where
  mesh : Option Mesh
  skin : Option Skin
deriving DecidableEq

structure GltfAsset where
  number_of_meshes : Nat
  nodes : List GltfNode
  textures_len : Nat
  vertex_count : Nat
  indices_len : Nat
deriving DecidableEq

instance : Inhabited GltfAsset := ⟨⟨0, [], 0, 0, 0⟩⟩

/-- The total skin joint count accumulated by the `walk_mut` closure in
`generate_metadata`: for every node carrying a skin, add that skin's joint
count. -/
def joint_total (a : GltfAsset) : Nat :=
  (a.nodes.map fun nd =>
    match nd.skin with
    | some sk => sk.joints.length
    | none => 0).sum

/-! ## Asset cache (scene.rs `AssetCache::generate_metadata`, lines 609-668) -/

structure InstanceMetadata where
  mesh_offset : Nat
  joint_offset : Nat
deriving DecidableEq

structure AssetMetadata where
  index : Nat
  texture_offset : Nat
  vertex_offset : Nat
  index_offset : Nat
  instances : List InstanceMetadata
deriving DecidableEq

/-- `AssetMetadata::default()` — Rust's derived Default zeroes every field. -/
def AssetMetadata.default : AssetMetadata :=
  { index := 0, texture_offset := 0, vertex_offset := 0, index_offset := 0, instances := [] }

/-- The `HashMap<String, AssetMetadata>` modelled as an association list with
unique keys; `find_metadata` is `contains_key`/`entry` lookup. -/
def find_metadata : List (String × AssetMetadata) → String → Option AssetMetadata
  | [], _ => none
  | (k, v) :: rest, name => if k = name then some v else find_metadata rest name

/-- Map update: replace the entry for `name` if present, else append it. -/
def insert_metadata : List (String × AssetMetadata) → String → AssetMetadata →
    List (String × AssetMetadata)
  | [], name, v => [(name, v)]
  | (k, v') :: rest, name, v =>
    if k = name then (name, v) :: rest else (k, v') :: insert_metadata rest name v

/-- The mutable state of `generate_metadata`: the unique-asset list, the
metadata map, and the six running counters (all starting at zero). -/
structure AssetCacheState where
  assets : List GltfAsset
  metadata : List (String × AssetMetadata)
  mesh_offset : Nat
  joint_offset : Nat
  texture_offset : Nat
  vertex_offset : Nat
  index_offset : Nat
  asset_index : Nat
deriving DecidableEq

/-- The tail of each loop iteration (scene.rs:648-663): build the
`InstanceMetadata` from the current running totals, look the asset up by the
entry's `index`, advance the joint total by the asset's skin joints and the
mesh total by its mesh count, and push the instance onto the entry. -/
def create_instance (s : AssetCacheState) (name : String) (am : AssetMetadata) :
    AssetCacheState :=
  let instance_metadata : InstanceMetadata :=
    { mesh_offset := s.mesh_offset, joint_offset := s.joint_offset }
  let asset := (s.assets.get? am.index).getD default
  { s with
    joint_offset := s.joint_offset + joint_total asset,
    mesh_offset := s.mesh_offset + asset.number_of_meshes,
    metadata := insert_metadata s.metadata name
      { am with instances := am.instances ++ [instance_metadata] } }

/-- One iteration of the `for asset_name in asset_names` loop
(scene.rs:618-664): on first sight of a name, fill in the entry's storage
index/offsets, load the asset, advance the storage counters and push the
asset onto the unique-asset list; in every case append an instance record. -/
def process_placement (load : String → GltfAsset) (s : AssetCacheState) (name : String) :
    AssetCacheState :=
  let entry := find_metadata s.metadata name
  let first_visit := entry.isNone
  let am := entry.getD AssetMetadata.default
  if first_visit then
    let am := { am with
      index := s.asset_index,
      texture_offset := s.texture_offset,
      vertex_offset := s.vertex_offset,
      index_offset := s.index_offset }
    let asset := load name
    let s := { s with
      asset_index := s.asset_index + 1,
      texture_offset := s.texture_offset + asset.textures_len,
      vertex_offset := s.vertex_offset + asset.vertex_count,
      index_offset := s.index_offset + asset.indices_len,
      assets := s.assets ++ [asset] }
    create_instance s name am
  else
    create_instance s name am

/-- Embeds `AssetCache::generate_metadata` as called from `AssetCache::new`
(empty asset list, fresh map, all counters zero), with the asset loader
`GltfAsset::new` abstracted as `load`. -/
def generate_metadata (load : String → GltfAsset) (asset_names : List String) :
    AssetCacheState :=
  List.foldl (process_placement load)
    { assets := [],
      metadata := [],
      mesh_offset := 0,
      joint_offset := 0,
      texture_offset := 0,
      vertex_offset := 0,
      index_offset := 0,
      asset_index := 0 }
    asset_names

/-- Sum of the mesh counts of a sequence of placements. -/
def mesh_sum (load : String → GltfAsset) (names : List String) : Nat :=
  (names.map fun n => (load n).number_of_meshes).sum

/-- Sum of the skin joint counts of a sequence of placements. -/
def joint_sum (load : String → GltfAsset) (names : List String) : Nat :=
  (names.map fun n => joint_total (load n)).sum

/-- The instance records a placement sequence `rest` (processed after the
placements `pre`) appends to the entry for name `n`: one record per
occurrence of `n`, carrying the running mesh/joint totals over all prior
placements. -/
def placed_instances (load : String → GltfAsset) (n : String) :
    List String → List String → List InstanceMetadata
  | [], _ => []
  | m :: rest, pre =>
    (if m = n then [⟨mesh_sum load pre, joint_sum load pre⟩] else [])
      ++ placed_instances load n rest (pre ++ [m])

/-! ## Draw issuance (scene.rs `PbrScene::issue_commands`, lines 810-817, and
`PbrScene::render_pbr_assets`, lines 835-910)

The recorded Vulkan commands are modelled as an emitted command list. -/

inductive DrawCommand
  | skybox_bind
  | skybox_draw
  | bind_geometry_buffers
  | bind_pbr_pipeline (blended : Bool)
  | bind_descriptor_sets (dynamic_offset_index : Nat)
  | push_constants
  | draw_indexed (alpha_mode : AlphaMode) (number_of_indices first_index : Nat)
deriving DecidableEq

/-- Embeds `PbrRenderer::draw_asset` (scene.rs:400-464): walk the asset's
nodes; for each node carrying a mesh, bind the descriptor set at the
instance's dynamic offset, then for each primitive whose material alpha mode
equals the pass's `alpha_mode`, push material constants and draw. -/
def draw_asset (asset : GltfAsset) (am : AssetMetadata) (instance_index : Nat)
    (alpha_mode : AlphaMode) : List DrawCommand :=
  let instance_metadata := (am.instances.get? instance_index).getD ⟨0, 0⟩
  (asset.nodes.map fun node =>
    match node.mesh with
    | some mesh =>
        DrawCommand.bind_descriptor_sets (instance_metadata.mesh_offset + mesh.mesh_id)
          :: (mesh.primitives.map fun p =>
               if p.alpha_mode = alpha_mode then
                 [DrawCommand.push_constants,
                  DrawCommand.draw_indexed p.alpha_mode p.number_of_indices
                    (am.index_offset + p.first_index)]
               else []).flatten
    | none => []).flatten

/-- One alpha-mode pass of `render_pbr_assets`: bind the ordinary PBR
pipeline for Opaque, the blended variant for Blend, nothing for Mask, then
draw every cached asset instance with that mode filter. -/
def alpha_mode_pass (assets : List GltfAsset)
    (metadata : List (String × AssetMetadata)) (alpha_mode : AlphaMode) :
    List DrawCommand :=
  (match alpha_mode with
   | AlphaMode.Opaque => [DrawCommand.bind_pbr_pipeline false]
   | AlphaMode.Blend => [DrawCommand.bind_pbr_pipeline true]
   | AlphaMode.Mask => [])
  ++ (metadata.map fun entry =>
       let am := entry.2
       let asset := (assets.get? am.index).getD default
       ((List.range am.instances.length).map fun instance_index =>
          draw_asset asset am instance_index alpha_mode).flatten).flatten

/-- Embeds `render_pbr_assets`: bind the shared geometry buffers, then run
the three passes in the fixed order `[Opaque, Mask, Blend]`. -/
def render_pbr_assets (assets : List GltfAsset)
    (metadata : List (String × AssetMetadata)) : List DrawCommand :=
  DrawCommand.bind_geometry_buffers
    :: ([AlphaMode.Opaque, AlphaMode.Mask, AlphaMode.Blend].map
         (alpha_mode_pass assets metadata)).flatten

/-- Embeds `PbrScene::issue_commands`: skybox first, then the PBR passes. -/
def issue_commands (assets : List GltfAsset)
    (metadata : List (String × AssetMetadata)) : List DrawCommand :=
  [DrawCommand.skybox_bind, DrawCommand.skybox_draw] ++ render_pbr_assets assets metadata

/-- A draw call of Blend-mode geometry. -/
def is_blend_draw : DrawCommand → Bool
  | .draw_indexed .Blend _ _ => true
  | _ => false

/-- A draw call of Opaque- or Mask-mode geometry. -/
def is_opaque_or_mask_draw : DrawCommand → Bool
  | .draw_indexed .Opaque _ _ => true
  | .draw_indexed .Mask _ _ => true
  | _ => false

/-- The spec's demonstration cube: 2 meshes, no skins. -/
def cube_asset : GltfAsset :=
  { number_of_meshes := 2, nodes := [], textures_len := 1, vertex_count := 8,
    indices_len := 36 }

/-- The spec's demonstration sphere: 1 mesh, one skin with 4 joints. -/
def sphere_asset : GltfAsset :=
  { number_of_meshes := 1,
    nodes := [{ mesh := none, skin := some { joints := [⟨0⟩, ⟨1⟩, ⟨2⟩, ⟨3⟩] } }],
    textures_len := 1, vertex_count := 16, indices_len := 60 }

/-- The asset loader for the spec's end-to-end scenario. -/
def demo_load : String → GltfAsset :=
  fun n => if n = "sphere.glb" then sphere_asset else cube_asset

/-- The spec's end-to-end placement sequence: cube twice, then sphere once. -/
def demo_names : List String := ["cube.glb", "cube.glb", "sphere.glb"]

/-- A one-asset cache used to exercise the draw-order theorem on a concrete
input: one mesh with one Opaque and one Blend primitive. -/
def witness_asset : GltfAsset :=
  { number_of_meshes := 1,
    nodes := [{ mesh := some { mesh_id := 0,
                               primitives := [{ alpha_mode := AlphaMode.Opaque,
                                                number_of_indices := 3,
                                                first_index := 0 },
                                              { alpha_mode := AlphaMode.Blend,
                                                number_of_indices := 3,
                                                first_index := 3 }] },
                skin := none }],
    textures_len := 0,
    vertex_count := 0,
    indices_len := 0 }

/-- Metadata for `witness_asset` registered once and placed once. -/
def witness_metadata : List (String × AssetMetadata) :=
  [("a", { index := 0, texture_offset := 0, vertex_offset := 0, index_offset := 0,
           instances := [⟨0, 0⟩] })]

/-! # Theorems -/

/-! ## C2: dynamic alignment -/

/-- The mask `(2^64 - 1) ^^^ (2^k - 1)` keeps exactly the bits in `[k, 64)`,
so for `x < 2^64`, `x &&& mask` clears the low `k` bits of `x`. -/
theorem and_high_mask (x k : Nat) (hx : x < 2 ^ 64) (hk : k ≤ 64) :
    x &&& ((2 ^ 64 - 1) ^^^ (2 ^ k - 1)) = 2 ^ k * (x / 2 ^ k) := by
  apply Nat.eq_of_testBit_eq
  intro i
  have h2 : 2 ^ k * (x / 2 ^ k) = (x >>> k) <<< k := by
    rw [Nat.shiftLeft_eq, Nat.shiftRight_eq_div_pow, Nat.mul_comm]
  rw [Nat.testBit_and, Nat.testBit_xor, Nat.testBit_two_pow_sub_one,
    Nat.testBit_two_pow_sub_one, h2, Nat.testBit_shiftLeft, Nat.testBit_shiftRight]
  rcases Nat.lt_or_ge i k with hik | hik
  · have h64 : i < 64 := Nat.lt_of_lt_of_le hik hk
    have hge : ¬ i ≥ k := Nat.not_le_of_lt hik
    simp [hik, h64, hge]
  · have hki : k + (i - k) = i := by omega
    rcases Nat.lt_or_ge i 64 with hi64 | hi64
    · have : ¬ i < k := Nat.not_lt_of_le hik
      simp [this, hi64, hik, hki]
    · have hxi : x.testBit i = false := by
        apply Nat.testBit_lt_two_pow
        exact Nat.lt_of_lt_of_le hx (Nat.pow_le_pow_right (by norm_num) hi64)
      have : ¬ i < k := Nat.not_lt_of_le hik
      have : ¬ i < 64 := Nat.not_lt_of_le hi64
      simp_all [hki]

/-- For a positive power-of-two alignment and no `u64` overflow, the source's
bit trick computes the round-up `A * ⌈S / A⌉`. -/
theorem calculate_dynamic_alignment_pow2 (S k : Nat) (hk : k < 64)
    (hov : S + 2 ^ k - 1 < 2 ^ 64) :
    calculate_dynamic_alignment S (2 ^ k) = 2 ^ k * ((S + 2 ^ k - 1) / 2 ^ k) := by
  have hpos : 0 < 2 ^ k := Nat.two_pow_pos k
  unfold calculate_dynamic_alignment
  rw [if_pos hpos]
  have h1 : (S + 2 ^ k - 1) % 2 ^ 64 = S + 2 ^ k - 1 := Nat.mod_eq_of_lt hov
  have h2 : (2 ^ k - 1) % 2 ^ 64 = 2 ^ k - 1 := by
    apply Nat.mod_eq_of_lt
    have : (2 : Nat) ^ k < 2 ^ 64 := Nat.pow_lt_pow_right (by norm_num) hk
    omega
  rw [h1, h2, and_high_mask _ k hov (Nat.le_of_lt hk)]

/-- C2 counterexample: the claim quantifies over every device minimum
alignment `A`, but the bit trick `(S + A - 1) & !(A - 1)` is only a round-up
for power-of-two `A`.  At the source's actual struct size `S = 80` and
`A = 3`, the smallest multiple of 3 that is ≥ 80 is 81, yet the computed
value is 80, which is not even a multiple of 3. -/
theorem C2_alignment_counterexample :
    calculate_dynamic_alignment 80 3 = 80 ∧ ¬ (3 ∣ calculate_dynamic_alignment 80 3) := by
  constructor
  · decide
  · decide

/-- C2 (amended): for every struct size `S` and every power-of-two device
minimum alignment `A = 2^k` (Vulkan guarantees the limit is a power of two)
such that `S + A - 1` does not overflow `u64`, the computed dynamic alignment
is the smallest multiple of `A` that is ≥ `S`; and for `A = 0` it equals `S`. -/
theorem C2_alignment_amended (S k : Nat) (hk : k < 64) (hov : S + 2 ^ k - 1 < 2 ^ 64) :
    2 ^ k ∣ calculate_dynamic_alignment S (2 ^ k)
    ∧ S ≤ calculate_dynamic_alignment S (2 ^ k)
    ∧ (∀ m, 2 ^ k ∣ m → S ≤ m → calculate_dynamic_alignment S (2 ^ k) ≤ m)
    ∧ calculate_dynamic_alignment S 0 = S := by
  have hpos : 0 < 2 ^ k := Nat.two_pow_pos k
  have key := calculate_dynamic_alignment_pow2 S k hk hov
  refine ⟨key ▸ Dvd.intro _ rfl, ?_, ?_, by simp [calculate_dynamic_alignment]⟩
  · rw [key]
    have hmd := Nat.mod_add_div (S + 2 ^ k - 1) (2 ^ k)
    have hr : (S + 2 ^ k - 1) % 2 ^ k < 2 ^ k := Nat.mod_lt _ hpos
    generalize hB : 2 ^ k * ((S + 2 ^ k - 1) / 2 ^ k) = B at hmd ⊢
    omega
  · intro m hdvd hSm
    obtain ⟨t, rfl⟩ := hdvd
    rw [key]
    apply Nat.mul_le_mul_left
    have h1 : S + 2 ^ k - 1 ≤ 2 ^ k * t + (2 ^ k - 1) := by
      have := hSm
      generalize 2 ^ k * t = M at *
      omega
    calc (S + 2 ^ k - 1) / 2 ^ k ≤ (2 ^ k * t + (2 ^ k - 1)) / 2 ^ k :=
          Nat.div_le_div_right h1
      _ = t := by
          rw [Nat.mul_add_div hpos, Nat.div_eq_of_lt (by omega), Nat.add_zero]

/-- Witness for C2_alignment_amended at `S = 80`, `A = 2^4 = 16`:
the computed alignment is the smallest multiple of 16 that is ≥ 80. -/
theorem C2_alignment_amended_witness :
    4 < 64 ∧ 80 + 2 ^ 4 - 1 < 2 ^ 64 ∧
      (2 ^ 4 ∣ calculate_dynamic_alignment 80 (2 ^ 4)
       ∧ 80 ≤ calculate_dynamic_alignment 80 (2 ^ 4)
       ∧ (∀ m, 2 ^ 4 ∣ m → 80 ≤ m → calculate_dynamic_alignment 80 (2 ^ 4) ≤ m)
       ∧ calculate_dynamic_alignment 80 0 = 80) :=
  ⟨by decide, by decide, C2_alignment_amended 80 4 (by decide) (by decide)⟩

/-- C3: the frame counter at renderer.rs:334 is advanced by
`current_frame += (1 + current_frame) % MAX_FRAMES_IN_FLIGHT`, so it gets
stuck at 1: five successive rendered frames starting from counter 0 use
synchronization slots 0, 1, 1, 1, 1 — not the claimed 0, 1, 0, 1, 0 — and
the counter does not grow by one per frame (`advance_current_frame 1 = 1`). -/
theorem C3_frame_counter_stuck :
    (List.iterate advance_current_frame 0 5).map sync_slot_index = [0, 1, 1, 1, 1]
    ∧ [0, 1, 1, 1, 1] ≠ [0, 1, 0, 1, 0]
    ∧ advance_current_frame 1 = 1 := by
  refine ⟨by decide, by decide, by decide⟩

/-- C9: `Buffer::upload_to_buffer` ignores its `offset` argument — the source
computes `data_pointer.add(offset)` but discards the result — so two uploads
of the same data at different offsets produce identical memory contents, and
the data always lands at the very beginning of the mapped allocation. -/
theorem C9_upload_to_buffer_ignores_offset {α : Type} (data mem : List α) (o₁ o₂ : Nat) :
    upload_to_buffer data o₁ mem = upload_to_buffer data o₂ mem
    ∧ (upload_to_buffer data o₁ mem).take data.length = data :=
  ⟨rfl, List.take_left data (mem.drop data.length)⟩

/-- C10: `SynchronizationSet::new` creates exactly `MAX_FRAMES_IN_FLIGHT`
slots (semaphore pairs and fences), and every in-flight fence is created with
the SIGNALED flag, so the first fence wait on any ring slot returns
immediately. -/
theorem C10_synchronization_set_initial :
    SynchronizationSet.new.in_flight_fences.length = MAX_FRAMES_IN_FLIGHT
    ∧ SynchronizationSet.new.image_available_semaphores.length = MAX_FRAMES_IN_FLIGHT
    ∧ SynchronizationSet.new.render_finished_semaphores.length = MAX_FRAMES_IN_FLIGHT
    ∧ ∀ f ∈ SynchronizationSet.new.in_flight_fences,
        fence_wait_returns_immediately f = true := by
  refine ⟨rfl, rfl, rfl, ?_⟩
  intro f hf
  have := List.eq_of_mem_replicate hf
  subst this
  rfl

/-- C5: scene.rs only prints the capacity warning when a joint's within-skin
index is strictly greater than `MAX_NUM_JOINTS` and never skips the write.
For a skin with 129 joints at `joint_offset = 0`, the 129th joint (index 128)
triggers no warning — `128 > MAX_NUM_JOINTS` is false — and its write into
the 128-entry joint-matrix table is executed anyway, aborting with an
out-of-bounds panic instead of being skipped. -/
theorem C5_joint_write_not_skipped :
    write_joint_matrices 0 (List.replicate 129 (0 : Nat)) (List.replicate MAX_NUM_JOINTS 0)
      = Except.error "index out of bounds"
    ∧ ¬ (128 > MAX_NUM_JOINTS) := by
  refine ⟨by rfl, by decide⟩

/-- The source's mip loop computes exactly the spec's per-level chain: for
positive dimensions, `if d > 1 then d / 2 else d` is `max (d / 2) 1`. -/
theorem generate_mipmaps_loop_eq_spec (r : Nat) :
    ∀ level w h, 1 ≤ w → 1 ≤ h →
      generate_mipmaps_loop level w h r = spec_mip_chain level w h r := by
  induction r with
  | zero => intro level w h _ _; rfl
  | succ r ih =>
    intro level w h hw hh
    have hw2 : (if w > 1 then w / 2 else w) = max (w / 2) 1 := by
      rcases Nat.lt_or_ge 1 w with h1 | h1
      · rw [if_pos h1, Nat.max_eq_left (by omega : 1 ≤ w / 2)]
      · have : w = 1 := by omega
        subst this
        rfl
    have hh2 : (if h > 1 then h / 2 else h) = max (h / 2) 1 := by
      rcases Nat.lt_or_ge 1 h with h1 | h1
      · rw [if_pos h1, Nat.max_eq_left (by omega : 1 ≤ h / 2)]
      · have : h = 1 := by omega
        subst this
        rfl
    simp only [generate_mipmaps_loop, spec_mip_chain, hw2, hh2]
    rw [ih (level + 1) (max (w / 2) 1) (max (h / 2) 1)
      (Nat.le_max_right _ _) (Nat.le_max_right _ _)]

/-- C8: for every texture with positive dimensions, `generate_mipmaps` emits
exactly the spec's sequence — for each level `N` from 1 to `mip_levels - 1`
in order: transition `N-1` from transfer-dst to transfer-src, blit `N-1` into
`N` at half resolution (floor division clamped to a minimum of 1), transition
`N-1` to shader-read; finally level `mip_levels - 1` is transitioned directly
from transfer-dst to shader-read.  An unsupported linear-filtering blit is
fatal for the texture (an error, not a retry or downgrade). -/
theorem C8_generate_mipmaps_sequence (width height mip_levels : Nat)
    (hw : 1 ≤ width) (hh : 1 ≤ height) :
    generate_mipmaps true width height mip_levels
        = Except.ok (spec_generate_mipmaps width height mip_levels)
    ∧ generate_mipmaps false width height mip_levels
        = Except.error "Linear blitting is not supported for format" := by
  constructor
  · simp only [generate_mipmaps, spec_generate_mipmaps, if_pos]
    rw [generate_mipmaps_loop_eq_spec _ 1 width height hw hh]
  · rfl

/-- Witness for C8_generate_mipmaps_sequence on an 8×3 texture with 4 mip
levels. -/
theorem C8_generate_mipmaps_sequence_witness :
    1 ≤ 8 ∧ 1 ≤ 3 ∧
      (generate_mipmaps true 8 3 4 = Except.ok (spec_generate_mipmaps 8 3 4)
       ∧ generate_mipmaps false 8 3 4
           = Except.error "Linear blitting is not supported for format") :=
  ⟨by decide, by decide, C8_generate_mipmaps_sequence 8 3 4 (by decide) (by decide)⟩

/-- C7: on out-of-date at acquisition the frame is abandoned — no submission
and no presentation — and the swapchain is rebuilt; on out-of-date or
suboptimal at presentation the swapchain is likewise rebuilt; the rebuild
waits for device idle, destroys the swapchain and the render-pass-dependent
handles, recreates them against the window extent, and re-records every
command buffer, with no acquire inside the rebuild (so the re-record happens
before the next acquire attempt); and every staleness path returns `ok`, not
an error. -/
theorem C7_stale_swapchain_recovery :
    (∀ (pr : PresentResult) (w h cf : Nat),
      render AcquireResult.error_out_of_date pr w h cf
        = Except.ok ([RenderAction.wait_fence, RenderAction.acquire_next_image]
            ++ recreate_swapchain w h, cf))
    ∧ (∀ (w h i : Nat),
        RenderAction.submit_command_buffer i
          ∉ [RenderAction.wait_fence, RenderAction.acquire_next_image]
              ++ recreate_swapchain w h)
    ∧ (∀ (w h i : Nat),
        RenderAction.present i
          ∉ [RenderAction.wait_fence, RenderAction.acquire_next_image]
              ++ recreate_swapchain w h)
    ∧ (∀ (idx w h cf : Nat),
        render (AcquireResult.success idx) PresentResult.error_out_of_date w h cf
          = Except.ok ([RenderAction.wait_fence, RenderAction.acquire_next_image,
              RenderAction.reset_fence, RenderAction.submit_command_buffer idx,
              RenderAction.present idx] ++ recreate_swapchain w h,
              advance_current_frame cf))
    ∧ (∀ (idx w h cf : Nat),
        render (AcquireResult.success idx) (PresentResult.success true) w h cf
          = Except.ok ([RenderAction.wait_fence, RenderAction.acquire_next_image,
              RenderAction.reset_fence, RenderAction.submit_command_buffer idx,
              RenderAction.present idx] ++ recreate_swapchain w h,
              advance_current_frame cf))
    ∧ (∀ w h : Nat,
        recreate_swapchain w h
          = [RenderAction.wait_idle, RenderAction.destroy_swapchain,
             RenderAction.create_swapchain w h, RenderAction.destroy_handles,
             RenderAction.create_handles, RenderAction.record_all_command_buffers])
    ∧ (∀ w h : Nat, RenderAction.acquire_next_image ∉ recreate_swapchain w h) := by
  refine ⟨fun pr w h cf => ?_, fun w h i => ?_, fun w h i => ?_,
    fun idx w h cf => rfl, fun idx w h cf => rfl, fun w h => rfl, fun w h => ?_⟩
  · cases pr <;> rfl
  · simp [recreate_swapchain]
  · simp [recreate_swapchain]
  · simp [recreate_swapchain]

/-- Every indexed draw emitted by `draw_asset` in one alpha-mode pass carries
that pass's alpha mode: primitives of other modes are filtered out. -/
theorem draw_asset_mode {asset : GltfAsset} {am : AssetMetadata} {k : Nat}
    {mode al : AlphaMode} {n f : Nat}
    (hc : DrawCommand.draw_indexed al n f ∈ draw_asset asset am k mode) :
    al = mode := by
  simp only [draw_asset, List.mem_flatten, List.mem_map] at hc
  obtain ⟨l, ⟨node, hnode, rfl⟩, hcl⟩ := hc
  cases hmesh : node.mesh with
  | none => rw [hmesh] at hcl; simp at hcl
  | some mesh =>
    rw [hmesh] at hcl
    rcases List.mem_cons.mp hcl with h | h
    · exact absurd h (by simp)
    · simp only [List.mem_flatten, List.mem_map] at h
      obtain ⟨l', ⟨p, hp, rfl⟩, hcl'⟩ := h
      by_cases hmode : p.alpha_mode = mode
      · rw [if_pos hmode] at hcl'
        rcases List.mem_cons.mp hcl' with h1 | h1
        · exact absurd h1 (by simp)
        · rcases List.mem_cons.mp h1 with h2 | h2
          · cases h2
            exact hmode
          · simp at h2
      · rw [if_neg hmode] at hcl'
        simp at hcl'

/-- Every indexed draw in a whole alpha-mode pass carries the pass's mode. -/
theorem alpha_mode_pass_mode {assets : List GltfAsset}
    {metadata : List (String × AssetMetadata)} {mode al : AlphaMode} {n f : Nat}
    (hc : DrawCommand.draw_indexed al n f ∈ alpha_mode_pass assets metadata mode) :
    al = mode := by
  simp only [alpha_mode_pass, List.mem_append] at hc
  rcases hc with h | h
  · cases mode <;> simp at h
  · simp only [List.mem_flatten, List.mem_map] at h
    obtain ⟨l, ⟨entry, hentry, rfl⟩, hcl⟩ := h
    simp only [List.mem_flatten, List.mem_map] at hcl
    obtain ⟨l', ⟨k, hk, rfl⟩, hcl'⟩ := hcl
    exact draw_asset_mode hcl'

/-- The command stream splits into the skybox+opaque+mask prefix and the
final blend pass. -/
theorem issue_commands_split (assets : List GltfAsset)
    (metadata : List (String × AssetMetadata)) :
    issue_commands assets metadata
      = ([DrawCommand.skybox_bind, DrawCommand.skybox_draw,
          DrawCommand.bind_geometry_buffers]
          ++ alpha_mode_pass assets metadata AlphaMode.Opaque
          ++ alpha_mode_pass assets metadata AlphaMode.Mask)
        ++ alpha_mode_pass assets metadata AlphaMode.Blend := by
  simp [issue_commands, render_pbr_assets]

/-- No Blend-mode draw occurs before the blend pass. -/
theorem no_blend_draw_before_blend_pass {assets : List GltfAsset}
    {metadata : List (String × AssetMetadata)} {c : DrawCommand}
    (hc : c ∈ [DrawCommand.skybox_bind, DrawCommand.skybox_draw,
        DrawCommand.bind_geometry_buffers]
          ++ alpha_mode_pass assets metadata AlphaMode.Opaque
          ++ alpha_mode_pass assets metadata AlphaMode.Mask) :
    is_blend_draw c = false := by
  cases c with
  | draw_indexed al n f =>
    rcases List.mem_append.mp hc with h | h
    · rcases List.mem_append.mp h with h1 | h1
      · simp at h1
      · rw [alpha_mode_pass_mode h1]
        rfl
    · rw [alpha_mode_pass_mode h]
      rfl
  | skybox_bind => rfl
  | skybox_draw => rfl
  | bind_geometry_buffers => rfl
  | bind_pbr_pipeline b => rfl
  | bind_descriptor_sets o => rfl
  | push_constants => rfl

/-- No Opaque- or Mask-mode draw occurs inside the blend pass. -/
theorem no_om_draw_in_blend_pass {assets : List GltfAsset}
    {metadata : List (String × AssetMetadata)} {c : DrawCommand}
    (hc : c ∈ alpha_mode_pass assets metadata AlphaMode.Blend) :
    is_opaque_or_mask_draw c = false := by
  cases c with
  | draw_indexed al n f =>
    rw [alpha_mode_pass_mode hc]
    rfl
  | skybox_bind => rfl
  | skybox_draw => rfl
  | bind_geometry_buffers => rfl
  | bind_pbr_pipeline b => rfl
  | bind_descriptor_sets o => rfl
  | push_constants => rfl

/-- C6: in the command sequence recorded by `issue_commands` for one frame,
every Blend-alpha-mode draw call comes after every Opaque- and
Mask-alpha-mode draw call, and the skybox is drawn (at position 1, after its
pipeline bind) before any PBR draw call — the full order is skybox, then
opaque/mask, then blend, for every set of cached assets and instances. -/
theorem C6_draw_order (assets : List GltfAsset)
    (metadata : List (String × AssetMetadata)) :
    (∀ i j ci cj,
      (issue_commands assets metadata).get? i = some ci →
      (issue_commands assets metadata).get? j = some cj →
      is_blend_draw ci = true → is_opaque_or_mask_draw cj = true → j < i)
    ∧ (issue_commands assets metadata).get? 0 = some DrawCommand.skybox_bind
    ∧ (issue_commands assets metadata).get? 1 = some DrawCommand.skybox_draw
    ∧ (∀ j cj, (issue_commands assets metadata).get? j = some cj →
        (is_blend_draw cj || is_opaque_or_mask_draw cj) = true → 1 < j) := by
  refine ⟨?_, by rw [issue_commands_split]; rfl, by rw [issue_commands_split]; rfl, ?_⟩
  · intro i j ci cj hi hj hbi hoj
    rw [issue_commands_split] at hi hj
    set P := [DrawCommand.skybox_bind, DrawCommand.skybox_draw,
        DrawCommand.bind_geometry_buffers]
          ++ alpha_mode_pass assets metadata AlphaMode.Opaque
          ++ alpha_mode_pass assets metadata AlphaMode.Mask with hP
    have hiP : ¬ i < P.length := by
      intro hlt
      rw [List.get?_append hlt] at hi
      have hmem := List.get?_mem hi
      rw [no_blend_draw_before_blend_pass hmem] at hbi
      cases hbi
    have hjP : j < P.length := by
      by_contra hge
      have hge' : P.length ≤ j := Nat.le_of_not_lt hge
      rw [List.get?_append_right hge'] at hj
      have hmem := List.get?_mem hj
      rw [no_om_draw_in_blend_pass hmem] at hoj
      cases hoj
    omega
  · intro j cj hj hd
    rw [issue_commands_split] at hj
    match j with
    | 0 =>
      have : DrawCommand.skybox_bind = cj := by
        simpa using hj
      subst this
      simp [is_blend_draw, is_opaque_or_mask_draw] at hd
    | 1 =>
      have : DrawCommand.skybox_draw = cj := by
        simpa using hj
      subst this
      simp [is_blend_draw, is_opaque_or_mask_draw] at hd
    | (n + 2) => omega

/-- Witness for C6_draw_order: on the one-asset cache, the Opaque draw sits
at position 6 and the Blend draw at position 11, so 6 < 11 as the theorem
demands. -/
theorem C6_draw_order_witness :
    (issue_commands [witness_asset] witness_metadata).get? 11
        = some (DrawCommand.draw_indexed AlphaMode.Blend 3 3)
    ∧ (issue_commands [witness_asset] witness_metadata).get? 6
        = some (DrawCommand.draw_indexed AlphaMode.Opaque 3 0)
    ∧ is_blend_draw (DrawCommand.draw_indexed AlphaMode.Blend 3 3) = true
    ∧ is_opaque_or_mask_draw (DrawCommand.draw_indexed AlphaMode.Opaque 3 0) = true
    ∧ 6 < 11 :=
  ⟨by decide, by decide, by decide, by decide,
   (C6_draw_order [witness_asset] witness_metadata).1 11 6
     (DrawCommand.draw_indexed AlphaMode.Blend 3 3)
     (DrawCommand.draw_indexed AlphaMode.Opaque 3 0)
     (by decide) (by decide) (by decide) (by decide)⟩

/-! ## Asset cache lemmas -/

theorem find_insert_self (m : List (String × AssetMetadata)) (name : String)
    (v : AssetMetadata) :
    find_metadata (insert_metadata m name v) name = some v := by
  induction m with
  | nil => simp [insert_metadata, find_metadata]
  | cons kv rest ih =>
    obtain ⟨k, v'⟩ := kv
    by_cases hk : k = name
    · simp [insert_metadata, find_metadata, hk]
    · simp [insert_metadata, find_metadata, hk, ih]

theorem find_insert_other (m : List (String × AssetMetadata)) (name name' : String)
    (v : AssetMetadata) (h : name ≠ name') :
    find_metadata (insert_metadata m name v) name' = find_metadata m name' := by
  induction m with
  | nil => simp [insert_metadata, find_metadata, h]
  | cons kv rest ih =>
    obtain ⟨k, v'⟩ := kv
    by_cases hk : k = name
    · subst hk
      simp [insert_metadata, find_metadata, h]
    · simp [insert_metadata, find_metadata, hk, ih]

theorem mesh_sum_append (load : String → GltfAsset) (names : List String) (m : String) :
    mesh_sum load (names ++ [m]) = mesh_sum load names + (load m).number_of_meshes := by
  simp [mesh_sum]

theorem joint_sum_append (load : String → GltfAsset) (names : List String) (m : String) :
    joint_sum load (names ++ [m]) = joint_sum load names + joint_total (load m) := by
  simp [joint_sum]

theorem placed_instances_of_not_mem (load : String → GltfAsset) (n : String) :
    ∀ (processed pre : List String), n ∉ processed →
      placed_instances load n processed pre = [] := by
  intro processed
  induction processed with
  | nil => intro pre _; rfl
  | cons m rest ih =>
    intro pre hn
    have hmn : ¬ m = n := fun h => hn (h ▸ List.mem_cons_self m rest)
    have hrest : n ∉ rest := fun h => hn (List.mem_cons_of_mem m h)
    simp [placed_instances, hmn, ih _ hrest]

theorem placed_instances_append (load : String → GltfAsset) (n m : String) :
    ∀ (names pre : List String),
      placed_instances load n (names ++ [m]) pre
        = placed_instances load n names pre
          ++ (if m = n then
                [⟨mesh_sum load (pre ++ names), joint_sum load (pre ++ names)⟩]
              else []) := by
  intro names
  induction names with
  | nil => intro pre; simp [placed_instances]
  | cons a rest ih =>
    intro pre
    simp only [List.cons_append, placed_instances, List.append_eq]
    rw [ih (pre ++ [a])]
    simp [List.append_assoc]

theorem placed_instances_split (load : String → GltfAsset) (n : String) :
    ∀ (a b pre : List String),
      placed_instances load n (a ++ b) pre
        = placed_instances load n a pre ++ placed_instances load n b (pre ++ a) := by
  intro a
  induction a with
  | nil => intro b pre; simp [placed_instances]
  | cons x rest ih =>
    intro b pre
    simp only [List.cons_append, placed_instances, List.append_eq]
    rw [ih b (pre ++ [x])]
    simp [List.append_assoc]

theorem placed_instances_length (load : String → GltfAsset) (n : String) :
    ∀ (names pre : List String),
      (placed_instances load n names pre).length = names.count n := by
  intro names
  induction names with
  | nil => intro pre; rfl
  | cons m rest ih =>
    intro pre
    by_cases hmn : m = n
    · subst hmn
      simp [placed_instances, ih, List.count_cons]
    · simp [placed_instances, hmn, ih, List.count_cons,
        show (m == n) = false from beq_eq_false_iff_ne.mpr hmn]

/-- Processing one prefix then the rest: `generate_metadata` over
`names ++ [m]` is one `process_placement` step after `generate_metadata`
over `names`. -/
theorem generate_metadata_append (load : String → GltfAsset) (names : List String)
    (m : String) :
    generate_metadata load (names ++ [m])
      = process_placement load (generate_metadata load names) m := by
  simp [generate_metadata, List.foldl_append]

/-- A repeat placement: the entry exists, so no asset is loaded; only the
running mesh/joint totals advance and an instance record is appended. -/
theorem process_placement_seen (load : String → GltfAsset) (s : AssetCacheState)
    (m : String) (am : AssetMetadata)
    (hfind : find_metadata s.metadata m = some am)
    (hasset : s.assets.get? am.index = some (load m)) :
    process_placement load s m
      = { s with
          joint_offset := s.joint_offset + joint_total (load m),
          mesh_offset := s.mesh_offset + (load m).number_of_meshes,
          metadata := insert_metadata s.metadata m
            { am with instances := am.instances
                ++ [⟨s.mesh_offset, s.joint_offset⟩] } } := by
  have hasset2 : s.assets[am.index]? = some (load m) := by
    simpa using hasset
  simp [process_placement, create_instance, hfind, hasset2]

/-- A first placement of a name: the asset is loaded and appended, the
storage offsets are recorded, and a first instance record is created. -/
theorem process_placement_new (load : String → GltfAsset) (s : AssetCacheState)
    (m : String)
    (hfind : find_metadata s.metadata m = none)
    (hidx : s.asset_index = s.assets.length) :
    process_placement load s m
      = { assets := s.assets ++ [load m],
          metadata := insert_metadata s.metadata m
            { index := s.asset_index,
              texture_offset := s.texture_offset,
              vertex_offset := s.vertex_offset,
              index_offset := s.index_offset,
              instances := [⟨s.mesh_offset, s.joint_offset⟩] },
          mesh_offset := s.mesh_offset + (load m).number_of_meshes,
          joint_offset := s.joint_offset + joint_total (load m),
          texture_offset := s.texture_offset + (load m).textures_len,
          vertex_offset := s.vertex_offset + (load m).vertex_count,
          index_offset := s.index_offset + (load m).indices_len,
          asset_index := s.asset_index + 1 } := by
  have hget : (s.assets ++ [load m])[s.asset_index]? = some (load m) := by
    rw [hidx]
    simp
  simp [process_placement, create_instance, hfind, hget, AssetMetadata.default]

/-- The running-state invariant of `generate_metadata`: the counters hold the
mesh/joint sums over all placements so far, an entry exists exactly for the
names seen so far, each entry's `index` points at that name's loaded asset in
the unique-asset list, and each entry's instance list is exactly one record
per placement of that name carrying the prior running totals. -/
theorem generate_metadata_invariant (load : String → GltfAsset) (names : List String) :
    (generate_metadata load names).asset_index
        = (generate_metadata load names).assets.length
    ∧ (generate_metadata load names).mesh_offset = mesh_sum load names
    ∧ (generate_metadata load names).joint_offset = joint_sum load names
    ∧ (∀ n, (find_metadata (generate_metadata load names).metadata n).isSome
        ↔ n ∈ names)
    ∧ (∀ n am, find_metadata (generate_metadata load names).metadata n = some am →
        (generate_metadata load names).assets.get? am.index = some (load n)
        ∧ am.instances = placed_instances load n names []) := by
  induction names using List.reverseRecOn with
  | nil =>
    refine ⟨rfl, rfl, rfl, ?_, ?_⟩
    · intro n
      simp [generate_metadata, find_metadata]
    · intro n am h
      simp [generate_metadata, find_metadata] at h
  | append_singleton ns m ih =>
    obtain ⟨ih_idx, ih_mesh, ih_joint, ih_find, ih_entry⟩ := ih
    rw [generate_metadata_append]
    cases hfind : find_metadata (generate_metadata load ns).metadata m with
    | some am =>
      have hm_mem : m ∈ ns := by
        have := (ih_find m).mp
        simp [hfind] at this
        exact this
      obtain ⟨hget, hinsts⟩ := ih_entry m am hfind
      rw [process_placement_seen load _ m am hfind hget]
      refine ⟨ih_idx, ?_, ?_, ?_, ?_⟩
      · simp [mesh_sum_append, ih_mesh]
      · simp [joint_sum_append, ih_joint]
      · intro n
        by_cases hnm : n = m
        · subst hnm
          simp [find_insert_self]
        · have hne : m ≠ n := fun h => hnm h.symm
          simp only [find_insert_other _ _ _ _ hne]
          rw [ih_find n]
          simp [hnm]
      · intro n am' h
        by_cases hnm : n = m
        · subst hnm
          rw [find_insert_self] at h
          cases h
          refine ⟨hget, ?_⟩
          simp only [hinsts, ih_mesh, ih_joint]
          rw [placed_instances_append]
          simp
        · have hne : m ≠ n := fun h' => hnm h'.symm
          rw [find_insert_other _ _ _ _ hne] at h
          obtain ⟨h1, h2⟩ := ih_entry n am' h
          refine ⟨h1, ?_⟩
          rw [h2, placed_instances_append]
          simp [hnm, hne]
    | none =>
      have hm_mem : m ∉ ns := by
        intro hmem
        have := (ih_find m).mpr hmem
        simp [hfind] at this
      rw [process_placement_new load _ m hfind ih_idx]
      refine ⟨?_, ?_, ?_, ?_, ?_⟩
      · simp [ih_idx]
      · simp [mesh_sum_append, ih_mesh]
      · simp [joint_sum_append, ih_joint]
      · intro n
        by_cases hnm : n = m
        · subst hnm
          simp [find_insert_self]
        · have hne : m ≠ n := fun h => hnm h.symm
          simp only [find_insert_other _ _ _ _ hne]
          rw [ih_find n]
          simp [hnm]
      · intro n am' h
        by_cases hnm : n = m
        · subst hnm
          rw [find_insert_self] at h
          cases h
          constructor
          · rw [ih_idx]
            exact List.get?_concat_length _ _
          · rw [placed_instances_append,
              placed_instances_of_not_mem load n ns [] hm_mem]
            simp [ih_mesh, ih_joint]
        · have hne : m ≠ n := fun h' => hnm h'.symm
          rw [find_insert_other _ _ _ _ hne] at h
          obtain ⟨h1, h2⟩ := ih_entry n am' h
          have hlt : am'.index < (generate_metadata load ns).assets.length := by
            rcases List.get?_eq_some.mp h1 with ⟨hb, _⟩
            exact hb
          constructor
          · rw [List.get?_append hlt]
            exact h1
          · rw [h2, placed_instances_append]
            simp [hnm, hne]

/-- The instance record for the `k`-th placement sits at position
"number of earlier placements of the same name" in its entry's instance list
and carries the running totals over all `k` prior placements. -/
theorem placed_instances_get (load : String → GltfAsset) (names : List String)
    (k : Nat) (hk : k < names.length) :
    (placed_instances load (names.get ⟨k, hk⟩) names []).get?
        ((names.take k).count (names.get ⟨k, hk⟩))
      = some ⟨mesh_sum load (names.take k), joint_sum load (names.take k)⟩ := by
  set n := names.get ⟨k, hk⟩ with hn
  set tk := names.take k with htk
  have hsplit : names = tk ++ names.drop k := (List.take_append_drop k names).symm
  have hdrop : names.drop k = n :: names.drop (k + 1) := by
    rw [hn]
    exact List.drop_eq_get_cons hk
  have key : placed_instances load n names []
      = placed_instances load n tk []
        ++ placed_instances load n (n :: names.drop (k + 1)) tk := by
    conv_lhs => rw [hsplit]
    rw [placed_instances_split, hdrop]
    simp
  have hlen : (placed_instances load n tk []).length = tk.count n :=
    placed_instances_length load n tk []
  rw [key, List.get?_append_right (Nat.le_of_eq hlen), hlen, Nat.sub_self]
  simp [placed_instances]

/-- C1: for every placement sequence, the `k`-th placement's
`InstanceMetadata.mesh_offset` is the sum of the mesh counts of all prior
placements and its `joint_offset` is the sum of the skin joint counts of all
prior placements, whether or not the name was seen before; the record sits in
the entry for the `k`-th name at the position given by the number of earlier
placements of that name. -/
theorem C1_instance_offsets (load : String → GltfAsset) (names : List String)
    (k : Nat) (hk : k < names.length) :
    ∃ am,
      find_metadata (generate_metadata load names).metadata (names.get ⟨k, hk⟩)
        = some am
      ∧ am.instances.get? ((names.take k).count (names.get ⟨k, hk⟩))
          = some ⟨mesh_sum load (names.take k), joint_sum load (names.take k)⟩ := by
  obtain ⟨-, -, -, hfind, hentry⟩ := generate_metadata_invariant load names
  have hmem : names.get ⟨k, hk⟩ ∈ names := List.get_mem names k hk
  obtain ⟨am, ham⟩ := Option.isSome_iff_exists.mp ((hfind _).mpr hmem)
  refine ⟨am, ham, ?_⟩
  obtain ⟨-, hinsts⟩ := hentry _ am ham
  rw [hinsts]
  exact placed_instances_get load names k hk

/-- Witness for C1_instance_offsets: the spec's end-to-end scenario — cube
(2 meshes, 0 joints) placed twice, then sphere (1 mesh, 4 joints) — gives the
third placement mesh_offset 4 and joint_offset 0. -/
theorem C1_instance_offsets_witness :
    2 < demo_names.length
    ∧ mesh_sum demo_load (demo_names.take 2) = 4
    ∧ joint_sum demo_load (demo_names.take 2) = 0
    ∧ ∃ am,
        find_metadata (generate_metadata demo_load demo_names).metadata
            (demo_names.get ⟨2, by decide⟩) = some am
        ∧ am.instances.get? ((demo_names.take 2).count (demo_names.get ⟨2, by decide⟩))
            = some ⟨mesh_sum demo_load (demo_names.take 2),
                    joint_sum demo_load (demo_names.take 2)⟩ :=
  ⟨by decide, by decide, by decide,
   C1_instance_offsets demo_load demo_names 2 (by decide)⟩

/-- C4: placing a fresh name `n` and then placing it a second time loads the
asset exactly once (the unique-asset list after the second registration is
unchanged, and it grew by exactly one entry in total at the first), keeps
`AssetMetadata.index` and the texture/vertex/index storage offsets identical
across both registrations, and appends exactly one instance record. -/
theorem C4_registration_idempotent (load : String → GltfAsset) (names : List String)
    (n : String) (hn : n ∉ names) :
    (generate_metadata load (names ++ [n, n])).assets
        = (generate_metadata load (names ++ [n])).assets
    ∧ (generate_metadata load (names ++ [n])).assets.length
        = (generate_metadata load names).assets.length + 1
    ∧ ∃ am1 am2,
        find_metadata (generate_metadata load (names ++ [n])).metadata n = some am1
        ∧ find_metadata (generate_metadata load (names ++ [n, n])).metadata n = some am2
        ∧ am2.index = am1.index
        ∧ am2.texture_offset = am1.texture_offset
        ∧ am2.vertex_offset = am1.vertex_offset
        ∧ am2.index_offset = am1.index_offset
        ∧ am2.instances.length = am1.instances.length + 1 := by
  obtain ⟨ih_idx, -, -, ih_find, -⟩ := generate_metadata_invariant load names
  have hfind0 : find_metadata (generate_metadata load names).metadata n = none := by
    cases hf : find_metadata (generate_metadata load names).metadata n with
    | none => rfl
    | some am =>
      exact absurd ((ih_find n).mp (by simp [hf])) hn
  have happ2 : names ++ [n, n] = (names ++ [n]) ++ [n] := by simp
  have h1 : generate_metadata load (names ++ [n])
      = process_placement load (generate_metadata load names) n :=
    generate_metadata_append load names n
  have h2 : generate_metadata load (names ++ [n, n])
      = process_placement load (generate_metadata load (names ++ [n])) n := by
    rw [happ2, generate_metadata_append]
  rw [process_placement_new load _ n hfind0 ih_idx] at h1
  have hfind1 : find_metadata (generate_metadata load (names ++ [n])).metadata n
      = some { index := (generate_metadata load names).asset_index,
               texture_offset := (generate_metadata load names).texture_offset,
               vertex_offset := (generate_metadata load names).vertex_offset,
               index_offset := (generate_metadata load names).index_offset,
               instances := [⟨(generate_metadata load names).mesh_offset,
                              (generate_metadata load names).joint_offset⟩] } := by
    rw [h1]
    exact find_insert_self _ _ _
  have hassets1 : (generate_metadata load (names ++ [n])).assets
      = (generate_metadata load names).assets ++ [load n] := by
    rw [h1]
  have hget1 : (generate_metadata load (names ++ [n])).assets.get?
      (generate_metadata load names).asset_index = some (load n) := by
    rw [hassets1, ih_idx]
    exact List.get?_concat_length _ _
  rw [process_placement_seen load _ n _ hfind1 hget1] at h2
  have hfind2 : find_metadata (generate_metadata load (names ++ [n, n])).metadata n
      = some { index := (generate_metadata load names).asset_index,
               texture_offset := (generate_metadata load names).texture_offset,
               vertex_offset := (generate_metadata load names).vertex_offset,
               index_offset := (generate_metadata load names).index_offset,
               instances := [⟨(generate_metadata load names).mesh_offset,
                              (generate_metadata load names).joint_offset⟩]
                 ++ [⟨(generate_metadata load (names ++ [n])).mesh_offset,
                      (generate_metadata load (names ++ [n])).joint_offset⟩] } := by
    rw [h2]
    exact find_insert_self _ _ _
  exact ⟨by rw [h2], by rw [hassets1]; simp,
    _, _, hfind1, hfind2, rfl, rfl, rfl, rfl, rfl⟩

/-- Witness for C4_registration_idempotent: sphere registered twice after
cube. -/
theorem C4_registration_idempotent_witness :
    "sphere.glb" ∉ ["cube.glb"]
    ∧ ((generate_metadata demo_load (["cube.glb"] ++ ["sphere.glb", "sphere.glb"])).assets
          = (generate_metadata demo_load (["cube.glb"] ++ ["sphere.glb"])).assets
       ∧ (generate_metadata demo_load (["cube.glb"] ++ ["sphere.glb"])).assets.length
          = (generate_metadata demo_load ["cube.glb"]).assets.length + 1
       ∧ ∃ am1 am2,
          find_metadata
              (generate_metadata demo_load (["cube.glb"] ++ ["sphere.glb"])).metadata
              "sphere.glb" = some am1
          ∧ find_metadata
              (generate_metadata demo_load
                (["cube.glb"] ++ ["sphere.glb", "sphere.glb"])).metadata
              "sphere.glb" = some am2
          ∧ am2.index = am1.index
          ∧ am2.texture_offset = am1.texture_offset
          ∧ am2.vertex_offset = am1.vertex_offset
          ∧ am2.index_offset = am1.index_offset
          ∧ am2.instances.length = am1.instances.length + 1) :=
  ⟨by decide,
   C4_registration_idempotent demo_load ["cube.glb"] "sphere.glb" (by decide)⟩

end Dragonglass
